import Mathlib

/-!
Verification of the container / skill / combat / action core of the 8bitrs
game (an 8-bit RuneScape clone written in Rust).  Rust source files are
embedded shallowly: pure functions become Lean functions, `&mut self`
methods become functions returning the new value together with the Rust
return value, `u32`/`u8`/`usize` quantities that the source guards against
overflow become `Nat`, `i32` values that may be negative become `Int`, and
`f32` timers/coordinates/probabilities become `ℚ` (exact arithmetic; every
property proved here is insensitive to the float rounding, as noted at each
use).  Randomness (`rand::Rng`) is passed in as an explicit oracle value.
-/

set_option maxRecDepth 8000

namespace RS8

/-- `ArmorSlot` from `src/inventory.rs`. -/
inductive ArmorSlot
  | head
  | body
  | legs
deriving DecidableEq

/-- `WeaponStats` from `src/inventory.rs`. -/
structure WeaponStats where
  attack_bonus : Int
  strength_bonus : Int
deriving DecidableEq

/-- `ArmorStats` from `src/inventory.rs`. -/
structure ArmorStats where
  defense_bonus : Int
  slot : ArmorSlot
deriving DecidableEq

/-- `ToolType` from `src/inventory.rs`. -/
inductive ToolType
  | axe (woodcutting_level : Nat)
  | tinderbox
  | fishingRod (fishing_level : Nat)
deriving DecidableEq

/-- `ResourceType` from `src/inventory.rs`. -/
inductive ResourceType
  | logs (firemaking_level : Nat)
  | rawFish (cooking_level : Nat) (burn_level : Nat)
  | cookedFish (healing : Nat)
  | burntFish
  | rawBeef (cooking_level : Nat) (burn_level : Nat)
  | burntBeef
  | bait
  | hide
  | bones
deriving DecidableEq

/-- `ItemType` from `src/inventory.rs`. -/
inductive ItemType
  | weapon (stats : WeaponStats)
  | armor (stats : ArmorStats)
  | food (healing : Int)
  | tool (tool : ToolType)
  | resource (res : ResourceType)
  | currency (value : Nat)
deriving DecidableEq

/-- Modelled from the spec: `bank.rs` and `ui.rs` compare `item_type` values
with `==`, but the `PartialEq` implementation for `ItemType` is not under
`src/`.  The spec says the category is determined by the item, so we model
`==` as structural equality, which a derived `PartialEq` would produce. -/
def itemTypeEq (a b : ItemType) : Bool := decide (a = b)

/-- `Item` from `src/inventory.rs`. -/
structure Item where
  name : String
  item_type : ItemType
  stackable : Bool
  quantity : Nat
deriving DecidableEq

/-- `Item::gp` from `src/inventory.rs`. -/
def Item.gp (amount : Nat) : Item :=
  { name := "GP", item_type := .currency 1, stackable := true, quantity := amount }

/-- `Item::bronze_sword` from `src/inventory.rs`. -/
def Item.bronze_sword : Item :=
  { name := "Bronze Sword"
    item_type := .weapon { attack_bonus := 4, strength_bonus := 3 }
    stackable := false, quantity := 1 }

/-- `Item::bronze_helmet` from `src/inventory.rs`. -/
def Item.bronze_helmet : Item :=
  { name := "Bronze Helmet"
    item_type := .armor { defense_bonus := 3, slot := .head }
    stackable := false, quantity := 1 }

/-- `Item::bronze_axe` from `src/inventory.rs`. -/
def Item.bronze_axe : Item :=
  { name := "Bronze Axe"
    item_type := .tool (.axe 1)
    stackable := false, quantity := 1 }

/-- `Item::logs` from `src/inventory.rs`. -/
def Item.logs : Item :=
  { name := "Logs"
    item_type := .resource (.logs 1)
    stackable := false, quantity := 1 }

/-- `Item::raw_trout` from `src/inventory.rs`. -/
def Item.raw_trout : Item :=
  { name := "Raw Trout"
    item_type := .resource (.rawFish 15 15)
    stackable := false, quantity := 1 }

/-- `Item::raw_shrimp` from `src/inventory.rs`. -/
def Item.raw_shrimp : Item :=
  { name := "Raw Shrimp"
    item_type := .resource (.rawFish 1 1)
    stackable := false, quantity := 1 }

/-- `Item::fishing_rod` from `src/inventory.rs`. -/
def Item.fishing_rod : Item :=
  { name := "Fishing Rod"
    item_type := .tool (.fishingRod 1)
    stackable := false, quantity := 1 }

/-- `Item::is_stackable` from `src/inventory.rs`: the stackable flag, or the
category is `Currency`. -/
def Item.is_stackable (it : Item) : Bool :=
  it.stackable ||
    match it.item_type with
    | .currency _ => true
    | _ => false

/-- Modelled from the spec: `Item::make_unstackable`, called by
`Bank::remove_items`, is not defined under `src/`.  Following its name and
the surrounding code (which also constructs the fresh item with
`stackable: false`), it clears the stackable flag. -/
def Item.make_unstackable (it : Item) : Item := { it with stackable := false }

/-- `Item::can_equip` from `src/inventory.rs`. -/
def Item.can_equip (it : Item) : Bool :=
  match it.item_type with
  | .weapon _ => true
  | .armor _ => true
  | _ => false

/-!  Containers.  `Inventory` and `Bank` hold `Vec<Option<Item>>`; the Rust
`capacity` field always equals `items.len()`, so the list alone carries the
state.  The slot-indexed `get_mut` updates are embedded as structural
recursion over the list: an out-of-range index leaves the list unchanged
and yields `none`, exactly as `get_mut` does. -/

/-- The stacking scan of `Inventory::add_item`: merge the incoming quantity
into the first occupied slot with the same name; `none` if there is no such
slot. -/
def stackInto : List (Option Item) → Item → Option (List (Option Item))
  | [], _ => none
  | none :: rest, it => (stackInto rest it).map (none :: ·)
  | some e :: rest, it =>
      if e.name = it.name then
        some (some { e with quantity := e.quantity + it.quantity } :: rest)
      else
        (stackInto rest it).map (some e :: ·)

/-- The empty-slot scan shared by `Inventory::add_item` and
`Bank::add_item`: put the item into the first empty slot; `none` if the
container is full. -/
def placeEmpty : List (Option Item) → Item → Option (List (Option Item))
  | [], _ => none
  | none :: rest, it => some (some it :: rest)
  | some e :: rest, it => (placeEmpty rest it).map (some e :: ·)

/-- Slot update of `Inventory::remove_item` / `Bank::remove_item` at a given
index: a stackable slot with quantity above one is decremented and a fresh
single item returned; otherwise the whole slot content is taken. -/
def removeAt : List (Option Item) → Nat → Option Item × List (Option Item)
  | [], _ => (none, [])
  | slot :: rest, 0 =>
      match slot with
      | none => (none, none :: rest)
      | some it =>
          if it.is_stackable ∧ 1 < it.quantity then
            (some { it with quantity := 1 },
             some { it with quantity := it.quantity - 1 } :: rest)
          else
            (some it, none :: rest)
  | slot :: rest, i + 1 =>
      let r := removeAt rest i
      (r.1, slot :: r.2)

/-- Slot update of `Inventory::remove_items` at a given index: fails when
the item is not stackable or `amount` exceeds the quantity; clears the slot
when `amount` equals the quantity; otherwise splits off `amount`. -/
def removeNAt : List (Option Item) → Nat → Nat → Option Item × List (Option Item)
  | [], _, _ => (none, [])
  | slot :: rest, 0, amount =>
      match slot with
      | none => (none, none :: rest)
      | some it =>
          if ¬ it.is_stackable ∨ it.quantity < amount then
            (none, some it :: rest)
          else if amount = it.quantity then
            (some it, none :: rest)
          else
            (some { it with quantity := amount },
             some { it with quantity := it.quantity - amount } :: rest)
  | slot :: rest, i + 1, amount =>
      let r := removeNAt rest i amount
      (r.1, slot :: r.2)

/-- `Inventory` from `src/inventory.rs` (the `capacity` field always equals
`items.length`). -/
structure Inventory where
  items : List (Option Item)
deriving DecidableEq

/-- `Inventory::new` from `src/inventory.rs`. -/
def Inventory.new (capacity : Nat) : Inventory := ⟨List.replicate capacity none⟩

/-- `Inventory::add_item` from `src/inventory.rs`: stackables merge into the
first slot with a matching name; otherwise the first empty slot is used;
`false` when the inventory is full. -/
def Inventory.add_item (inv : Inventory) (item : Item) : Bool × Inventory :=
  if item.is_stackable then
    match stackInto inv.items item with
    | some l => (true, ⟨l⟩)
    | none =>
        match placeEmpty inv.items item with
        | some l => (true, ⟨l⟩)
        | none => (false, inv)
  else
    match placeEmpty inv.items item with
    | some l => (true, ⟨l⟩)
    | none => (false, inv)

/-- `Inventory::remove_item` from `src/inventory.rs`. -/
def Inventory.remove_item (inv : Inventory) (index : Nat) : Option Item × Inventory :=
  let r := removeAt inv.items index
  (r.1, ⟨r.2⟩)

/-- `Inventory::remove_items` from `src/inventory.rs`. -/
def Inventory.remove_items (inv : Inventory) (index : Nat) (amount : Nat) :
    Option Item × Inventory :=
  let r := removeNAt inv.items index amount
  (r.1, ⟨r.2⟩)

/-- `Inventory::get_item` from `src/inventory.rs`. -/
def Inventory.get_item (inv : Inventory) (index : Nat) : Option Item :=
  match inv.items.get? index with
  | some (some it) => some it
  | _ => none

/-- `Bank` from `src/bank.rs`. -/
structure Bank where
  items : List (Option Item)
deriving DecidableEq

/-- `Bank::new` from `src/bank.rs`. -/
def Bank.new (capacity : Nat) : Bank := ⟨List.replicate capacity none⟩

/-- The stacking scan of `Bank::add_item`: the bank stacks unconditionally,
merging into the first occupied slot whose name and item type both match. -/
def bankStackInto : List (Option Item) → Item → Option (List (Option Item))
  | [], _ => none
  | none :: rest, it => (bankStackInto rest it).map (none :: ·)
  | some e :: rest, it =>
      if e.name = it.name ∧ itemTypeEq e.item_type it.item_type then
        some (some { e with quantity := e.quantity + it.quantity } :: rest)
      else
        (bankStackInto rest it).map (some e :: ·)

/-- `Bank::add_item` from `src/bank.rs`. -/
def Bank.add_item (bank : Bank) (item : Item) : Bool × Bank :=
  match bankStackInto bank.items item with
  | some l => (true, ⟨l⟩)
  | none =>
      match placeEmpty bank.items item with
      | some l => (true, ⟨l⟩)
      | none => (false, bank)

/-- `Bank::remove_item` from `src/bank.rs` (same body as
`Inventory::remove_item`). -/
def Bank.remove_item (bank : Bank) (index : Nat) : Option Item × Bank :=
  let r := removeAt bank.items index
  (r.1, ⟨r.2⟩)

/-- Slot update of `Bank::remove_items`: despite the `amount` argument it
always removes one unit when `amount >= 1`, clearing the slot when the
quantity is at most one and otherwise splitting off a single unstackable
item; `amount = 0` yields `none` and leaves the slot unchanged. -/
def bankRemoveNAt : List (Option Item) → Nat → Nat → Option Item × List (Option Item)
  | [], _, _ => (none, [])
  | slot :: rest, 0, amount =>
      match slot with
      | none => (none, none :: rest)
      | some it =>
          if 1 ≤ amount then
            if it.quantity ≤ 1 then
              (some (Item.make_unstackable { it with quantity := 1 }), none :: rest)
            else
              (some (Item.make_unstackable
                      { name := it.name, item_type := it.item_type
                        stackable := false, quantity := 1 }),
               some { it with quantity := it.quantity - 1 } :: rest)
          else
            (none, some it :: rest)
  | slot :: rest, i + 1, amount =>
      let r := bankRemoveNAt rest i amount
      (r.1, slot :: r.2)

/-- `Bank::remove_items` from `src/bank.rs`. -/
def Bank.remove_items (bank : Bank) (index : Nat) (amount : Nat) :
    Option Item × Bank :=
  let r := bankRemoveNAt bank.items index amount
  (r.1, ⟨r.2⟩)

/-- `Bank::get_item` from `src/bank.rs`. -/
def Bank.get_item (bank : Bank) (index : Nat) : Option Item :=
  match bank.items.get? index with
  | some (some it) => some it
  | _ => none

/-- Total quantity held under a given item name (observable state used by
the container claims). -/
def sumName : List (Option Item) → String → Nat
  | [], _ => 0
  | none :: rest, n => sumName rest n
  | some it :: rest, n =>
      (if it.name = n then it.quantity else 0) + sumName rest n

/-- Number of occupied slots holding a given item name. -/
def countName : List (Option Item) → String → Nat
  | [], _ => 0
  | none :: rest, n => countName rest n
  | some it :: rest, n =>
      (if it.name = n then 1 else 0) + countName rest n

/-!  Skills (`src/skills.rs`).  `Skill::update_level` accumulates the
per-level threshold `((level as f64 + 300.0 * 2f64.powf(level/7.0)) / 4.0)
as u32`.  We embed the threshold exactly: for integer `l`,
`⌊(l + 300·2^(l/7)) / 4⌋ = (l + ⌊(300^7 · 2^l)^(1/7)⌋) / 4` in integer
arithmetic (since `300·2^(l/7) = (300^7·2^l)^(1/7)` and `l` is an integer),
and for every `l` in `1..=98` the `f64` evaluation truncates to the same
value: the exact value of `(l + 300·2^(l/7))/4` is an integer for
`l = 28, 56, 84` (where `powf` is exact) and otherwise lies at distance at
least `0.02` from every integer, far beyond the rounding error of `powf`. -/

/-- Fuel-driven bit length (number of binary digits; 0 for 0). -/
def bitLenGo : Nat → Nat → Nat
  | 0, _ => 0
  | fuel + 1, n => if n = 0 then 0 else bitLenGo fuel (n / 2) + 1

/-- Bit length of a natural number (`n` itself is always enough fuel). -/
def bitLen (n : Nat) : Nat := bitLenGo n n

/-- Binary search for the integer seventh root: the greatest `r` in
`[lo, hi]` with `r^7 ≤ n`, assuming `lo^7 ≤ n`. -/
def iroot7Go : Nat → Nat → Nat → Nat → Nat
  | 0, lo, _, _ => lo
  | fuel + 1, lo, hi, n =>
      if lo < hi then
        let mid := (lo + hi + 1) / 2
        if mid ^ 7 ≤ n then iroot7Go fuel mid hi n
        else iroot7Go fuel lo (mid - 1) n
      else lo

/-- `⌊n^(1/7)⌋`, by binary search (`2^(bitLen n / 7 + 1)` exceeds the
root, and the interval halves each step, so the fuel suffices). -/
def iroot7 (n : Nat) : Nat :=
  iroot7Go (bitLen n + 2) 0 (2 ^ (bitLen n / 7 + 1)) n

/-- The per-level XP increment of `Skill::update_level`:
`⌊(level + 300·2^(level/7)) / 4⌋` (see the note above on exactness of the
`f64` original). -/
def xpIncrement (level : Nat) : Nat :=
  (level + iroot7 (300 ^ 7 * 2 ^ level)) / 4

/-- The `while level < 99` loop of `Skill::update_level`, with explicit
fuel (the loop runs at most 98 iterations). -/
def levelWalk : Nat → Nat → Nat → Nat → Nat
  | 0, level, _, _ => level
  | fuel + 1, level, points, experience =>
      if level < 99 then
        let points2 := points + xpIncrement level
        if experience < points2 then level
        else levelWalk fuel (level + 1) points2 experience
      else level

/-- `Skill::update_level` from `src/skills.rs` as a function of the
experience total. -/
def update_level (experience : Nat) : Nat :=
  levelWalk 99 1 0 experience

/-- `Skill` from `src/skills.rs`. -/
structure Skill where
  level : Nat
  experience : Nat
deriving DecidableEq

/-- `Skill::new` from `src/skills.rs`. -/
def Skill.new : Skill := { level := 1, experience := 0 }

/-- `Skill::add_experience` from `src/skills.rs`: add the XP, then
recompute the level from the new total. -/
def Skill.add_experience (s : Skill) (exp : Nat) : Skill :=
  let e := s.experience + exp
  { level := update_level e, experience := e }

/-- Cumulative XP threshold for reaching a level: the sum of
`xpIncrement l` for `l = 1 .. L-1`. -/
def cumXP (L : Nat) : Nat :=
  (List.range (L - 1)).foldl (fun acc l => acc + xpIncrement (l + 1)) 0

/-- `Skills` from `src/skills.rs`. -/
structure Skills where
  attack : Skill
  strength : Skill
  defense : Skill
  woodcutting : Skill
  firemaking : Skill
  fishing : Skill
  cooking : Skill
deriving DecidableEq

/-- `Skills::new` from `src/skills.rs`. -/
def Skills.new : Skills :=
  { attack := .new, strength := .new, defense := .new, woodcutting := .new
    firemaking := .new, fishing := .new, cooking := .new }

/-- `Skills::gain_woodcutting_xp` from `src/skills.rs`. -/
def Skills.gain_woodcutting_xp (s : Skills) (amount : Nat) : Skills :=
  { s with woodcutting := s.woodcutting.add_experience amount }

/-- `Skills::gain_fishing_xp` from `src/skills.rs`. -/
def Skills.gain_fishing_xp (s : Skills) (xp : Nat) : Skills :=
  { s with fishing := s.fishing.add_experience xp }

/-!  Equipment (`src/equipment.rs`). -/

/-- `Equipment` from `src/equipment.rs`. -/
structure Equipment where
  weapon : Option Item
  head : Option Item
  body : Option Item
  legs : Option Item
deriving DecidableEq

/-- `Equipment::new` from `src/equipment.rs`. -/
def Equipment.new : Equipment :=
  { weapon := none, head := none, body := none, legs := none }

/-- `Equipment::equip_weapon` from `src/equipment.rs`: unconditionally
replaces the weapon slot and returns the previous occupant (the source
performs no category check here). -/
def Equipment.equip_weapon (e : Equipment) (item : Item) : Option Item × Equipment :=
  (e.weapon, { e with weapon := some item })

/-- `Equipment::equip_armor` from `src/equipment.rs`: routes an armor item
to the slot named by its `ArmorStats`; any other item is a no-op returning
`None`. -/
def Equipment.equip_armor (e : Equipment) (item : Item) : Option Item × Equipment :=
  match item.item_type with
  | .armor stats =>
      match stats.slot with
      | .head => (e.head, { e with head := some item })
      | .body => (e.body, { e with body := some item })
      | .legs => (e.legs, { e with legs := some item })
  | _ => (none, e)

/-- `Equipment::unequip_weapon` from `src/equipment.rs`. -/
def Equipment.unequip_weapon (e : Equipment) : Option Item × Equipment :=
  (e.weapon, { e with weapon := none })

/-- `Equipment::unequip_armor` from `src/equipment.rs`. -/
def Equipment.unequip_armor (e : Equipment) (slot : ArmorSlot) : Option Item × Equipment :=
  match slot with
  | .head => (e.head, { e with head := none })
  | .body => (e.body, { e with body := none })
  | .legs => (e.legs, { e with legs := none })

/-!  Combat (`src/combat.rs`).  `Combat::attack` draws one `f32` in `[0,1)`
for the hit roll and, on a hit, one integer from `gen_range(1..=max_hit)`;
both draws are passed in as an oracle.  The `f32` probability arithmetic is
embedded over `ℚ`; the only property claimed about it — that the computed
hit chance is at least the `0.1` floor — is exact under `max` and therefore
unaffected by rounding.  `gen_range(1..=max_hit)` panics when the range is
empty (`max_hit < 1`): that branch is an `Except.error`.  `damage as u8`
wraps modulo 256. -/

/-- The two random draws consumed by one call to `Combat::attack`. -/
structure AttackRoll where
  hit_roll : ℚ
  damage_roll : Int
deriving DecidableEq

/-- The `max_hit` computed inside `Combat::attack`:
`1 + effective_strength / 10` in Rust (truncating) integer division. -/
def maxHit (effective_strength : Int) : Int :=
  1 + Int.tdiv effective_strength 10

/-- The hit chance computed inside `Combat::attack`:
`max(accuracy - defense, 0.1)`. -/
def hitChance (attacker : Skills) (defender : Skills)
    (attack_bonus defender_defense_bonus : Int) : ℚ :=
  let accuracy : ℚ := 1 / 2 + ((attacker.attack.level : ℚ) + (attack_bonus : ℚ)) * (1 / 100)
  let defense : ℚ := ((defender.defense.level : ℚ) + (defender_defense_bonus : ℚ)) * (1 / 100)
  max (accuracy - defense) (1 / 10)

/-- `Combat::attack` from `src/combat.rs`.  Returns `Except.error` exactly
when the code would panic in `gen_range` (empty damage range); otherwise
`ok none` on a miss and `ok (some damage)` on a hit, with the `as u8` cast
applied to the drawn damage. -/
def Combat.attack (attacker : Skills) (defender : Skills)
    (attack_bonus strength_bonus defender_defense_bonus : Int)
    (roll : AttackRoll) : Except String (Option Nat) :=
  let hit_chance := hitChance attacker defender attack_bonus defender_defense_bonus
  if roll.hit_roll ≤ hit_chance then
    let effective_strength : Int := (attacker.strength.level : Int) + strength_bonus
    let max_hit := maxHit effective_strength
    if max_hit < 1 then
      .error "cannot sample empty range"
    else
      .ok (some (roll.damage_roll % 256).toNat)
  else
    .ok none

/-!  World resources (`src/world.rs`, `src/world_objects.rs`).  Positions,
distances and timers are `f32` in the source and are embedded over `ℚ`;
the source compares `sqrt(dx²+dy²)` against `40.0`, which we express as
comparing `dx²+dy²` against `1600` (equivalent over the reals for
non-negative radicands). -/

/-- `TreeType` from `src/world.rs`. -/
inductive TreeType
  | normal
  | wall
deriving DecidableEq

/-- `Tree` from `src/world.rs`. -/
structure Tree where
  x : ℚ
  y : ℚ
  health : Nat
  respawn_timer : Option ℚ
  tree_type : TreeType
  fallen : Bool
deriving DecidableEq

/-- `Tree::new` from `src/world.rs`. -/
def Tree.new (x y : ℚ) : Tree :=
  { x := x, y := y, health := 3, respawn_timer := none
    tree_type := .normal, fallen := false }

/-- `Tree::is_chopped` from `src/world.rs`. -/
def Tree.is_chopped (t : Tree) : Bool :=
  match t.tree_type with
  | .normal => t.health = 0
  | .wall => false

/-- `Tree::try_chop` from `src/world.rs`: on success the health drops by
one, and on reaching zero the tree falls and a 30-second respawn countdown
starts. -/
def Tree.try_chop (t : Tree) (skills : Skills) (axe : Option Item) : Bool × Tree :=
  if t.is_chopped ∨ t.tree_type = .wall then
    (false, t)
  else
    match axe with
    | some item =>
        match item.item_type with
        | .tool (.axe woodcutting_level) =>
            if woodcutting_level ≤ skills.woodcutting.level then
              let t2 := { t with health := t.health - 1 }
              if t2.is_chopped then
                (true, { t2 with fallen := true, respawn_timer := some 30 })
              else
                (true, t2)
            else (false, t)
        | _ => (false, t)
    | none => (false, t)

/-- `ObjectType` from `src/world_objects.rs`. -/
inductive ObjectType
  | wall
  | tree
  | water
  | road
  | fence
  | castleWall
  | castleDoor
  | castleStairs
  | bridge
  | path
  | bankChest
deriving DecidableEq

/-- `WorldObject` from `src/world_objects.rs` (the drawing-only `width` and
`height` fields are omitted). -/
structure WorldObject where
  x : ℚ
  y : ℚ
  object_type : ObjectType
  blocks_movement : Bool
  health : Nat
  fallen : Bool
deriving DecidableEq

/-- A `WorldObject::new` tree (`ObjectType::Tree` row of the constructor
table: blocks movement, health 3). -/
def WorldObject.newTree (x y : ℚ) : WorldObject :=
  { x := x, y := y, object_type := .tree, blocks_movement := true
    health := 3, fallen := false }

/-- `WorldObject::is_chopped` from `src/world_objects.rs`. -/
def WorldObject.is_chopped (o : WorldObject) : Bool :=
  o.object_type = .tree ∧ o.health = 0

/-- `WorldObject::try_chop` from `src/world_objects.rs`.  Note: unlike
`Tree::try_chop`, this function only answers whether a chop is possible —
it never decrements `health` and never sets `fallen`. -/
def WorldObject.try_chop (o : WorldObject) (skills : Skills) (axe : Option Item) : Bool :=
  if o.is_chopped ∨ o.object_type ≠ .tree ∨ o.fallen then
    false
  else
    match axe with
    | some item =>
        match item.item_type with
        | .tool (.axe woodcutting_level) =>
            decide (woodcutting_level ≤ skills.woodcutting.level)
        | _ => false
    | none => false

/-- `WorldObject::set_chopped` from `src/world_objects.rs` (defined in the
source but never called). -/
def WorldObject.set_chopped (o : WorldObject) : WorldObject :=
  if o.object_type = .tree then
    { o with health := 0, fallen := true, blocks_movement := false }
  else o

/-- `FishType` from `src/world.rs`. -/
inductive FishType
  | shrimp
  | trout
deriving DecidableEq

/-- `FishingSpot` from `src/world.rs`. -/
structure FishingSpot where
  x : ℚ
  y : ℚ
  lifetime : ℚ
  fish_type : FishType
deriving DecidableEq

/-- `FishingSpot::new` from `src/world.rs`. -/
def FishingSpot.new (x y : ℚ) (fish_type : FishType) : FishingSpot :=
  { x := x, y := y, lifetime := 30, fish_type := fish_type }

/-- `FishingSpot::try_fish` from `src/world.rs`.  `roll` is the outcome of
the spot's `gen_bool` success draw (`true` = the draw succeeded). -/
def FishingSpot.try_fish (spot : FishingSpot) (skills : Skills)
    (rod : Option Item) (bait : Bool) (roll : Bool) : Option Item :=
  match spot.fish_type with
  | .shrimp =>
      if 1 ≤ skills.fishing.level ∧ rod.isSome then
        if roll then some Item.raw_shrimp else none
      else none
  | .trout =>
      if 15 ≤ skills.fishing.level ∧ rod.isSome ∧ bait then
        if roll then some Item.raw_trout else none
      else none

/-!  The ongoing-action pipeline (`src/main.rs`).  We embed the state the
`ChoppingTree` arm of `update_ongoing_action` touches, together with the
arm itself; the `Fighting` and `Fishing` arms drive the combat and fishing
resolvers already embedded above and are outside the chopping claim, so the
embedded step leaves their states unchanged. -/

/-- `PendingAction` from `src/main.rs`. -/
inductive PendingAction
  | chopTree (index : Nat)
  | pickupItem (index : Nat)
  | attack
  | fish (x y : ℚ)
  | none
deriving DecidableEq

/-- `OngoingAction` from `src/main.rs`. -/
inductive OngoingAction
  | choppingTree (x y : ℚ) (tree_index : Nat)
  | fighting (target_index : Nat)
  | fishing (x y : ℚ) (spot_index : Nat)
  | none
deriving DecidableEq

/-- The fields of `GameState` (`src/main.rs`) read or written by the
chopping arm of `update_ongoing_action`. -/
structure GameState where
  player_x : ℚ
  player_y : ℚ
  skills : Skills
  inventory : Inventory
  world_objects : List WorldObject
  target_x : Option ℚ
  target_y : Option ℚ
  pending_action : PendingAction
  ongoing_action : OngoingAction
  action_timer : ℚ
  messages : List String
deriving DecidableEq

/-- `GameUI::add_message` as seen from `src/main.rs` (message text only). -/
def GameState.add_message (gs : GameState) (m : String) : GameState :=
  { gs with messages := gs.messages ++ [m] }

/-- `GameState::set_destination` from `src/main.rs`. -/
def GameState.set_destination (gs : GameState) (x y : ℚ)
    (action : PendingAction) : GameState :=
  { gs with target_x := some x, target_y := some y, pending_action := action }

/-- `GameState::cancel_ongoing_action` from `src/main.rs`. -/
def GameState.cancel_ongoing_action (gs : GameState) : GameState :=
  { gs with ongoing_action := .none, action_timer := 0 }

/-- The axe search in the chopping arm: the first occupied inventory slot
holding an axe, together with that axe's required woodcutting level. -/
def findAxe : List (Option Item) → Option (Item × Nat)
  | [] => Option.none
  | Option.none :: rest => findAxe rest
  | some it :: rest =>
      match it.item_type with
      | .tool (.axe woodcutting_level) => some (it, woodcutting_level)
      | _ => findAxe rest

/-- The body of the `ChoppingTree` arm of `update_ongoing_action`
(`src/main.rs`), entered once the action timer has run out. -/
def chopArm (gs : GameState) (tree_index : Nat) : GameState :=
  match gs.world_objects.get? tree_index with
  | Option.none => gs.cancel_ongoing_action
  | some tree =>
      let dx := tree.x - gs.player_x
      let dy := tree.y - gs.player_y
      if 1600 < dx * dx + dy * dy then
        gs.set_destination tree.x tree.y (.chopTree tree_index)
      else
        match findAxe gs.inventory.items with
        | Option.none =>
            (gs.add_message "You need an axe to chop trees.").cancel_ongoing_action
        | some (axe, woodcutting_level) =>
            if tree.try_chop gs.skills (some axe) then
              let gs := gs.add_message "You swing your axe at the tree."
              let r := gs.inventory.add_item Item.logs
              if r.1 then
                let gs := { gs with inventory := r.2
                                    skills := gs.skills.gain_woodcutting_xp 25 }
                let gs := gs.add_message "You get a log."
                if tree.fallen then
                  (gs.add_message "The tree falls down!").cancel_ongoing_action
                else
                  let base_time : ℚ := 3
                  let level_bonus : ℚ := (gs.skills.woodcutting.level : ℚ) * (3 / 100)
                  let axe_bonus : ℚ := (woodcutting_level : ℚ) * (5 / 100)
                  { gs with action_timer := max (base_time - level_bonus - axe_bonus) (6 / 5) }
              else
                (gs.add_message "Your inventory is full.").cancel_ongoing_action
            else
              let gs :=
                if tree.is_chopped ∨ tree.fallen then
                  gs.add_message "This tree is already chopped down."
                else
                  gs.add_message
                    ("You need level " ++ toString woodcutting_level ++
                      " Woodcutting to use this axe.")
              gs.cancel_ongoing_action

/-- `GameState::update_ongoing_action` from `src/main.rs`: the timer is
decremented by `dt`; once it runs out the current ongoing action's arm
executes (the fighting and fishing arms are outside the chopping claim and
leave the embedded state unchanged). -/
def GameState.update_ongoing_action (gs : GameState) (dt : ℚ) : GameState :=
  let gs := { gs with action_timer := gs.action_timer - dt }
  if gs.action_timer ≤ 0 then
    match gs.ongoing_action with
    | .choppingTree _ _ tree_index => chopArm gs tree_index
    | .fighting _ => gs
    | .fishing _ _ _ => gs
    | .none => gs
  else gs

/-!  Bank UI transfer operations (`src/ui.rs`).  Only the container state
and the messages are embedded; `selected_inventory_slot` is passed in. -/

/-- The per-slot loop of `GameUI::deposit_all_items`: for each collected
slot index, the full quantity is removed and deposited; a full bank puts
the removed item back and stops the loop.  Returns the containers, the
total deposited, and the bank-full flag. -/
def depositLoop : List Nat → Inventory → Bank → Nat → Inventory × Bank × Nat × Bool
  | [], inv, bank, total => (inv, bank, total, false)
  | i :: rest, inv, bank, total =>
      match inv.get_item i with
      | Option.none => depositLoop rest inv bank total
      | some it =>
          let deposit_amount := it.quantity
          let r := inv.remove_items i deposit_amount
          match r.1 with
          | Option.none => depositLoop rest r.2 bank total
          | some deposited =>
              let a := bank.add_item deposited
              if a.1 then
                depositLoop rest r.2 a.2 (total + deposit_amount)
              else
                let back := r.2.add_item deposited
                (back.2, a.2, total, true)

/-- `GameUI::deposit_all_items` from `src/ui.rs`: gathers every inventory
slot whose item matches the selected slot's name and item type, sorts the
indices descending, and deposits each slot's full quantity, stopping when
the bank is full. -/
def deposit_all_items (selected_inventory_slot : Option Nat)
    (inv : Inventory) (bank : Bank) : Inventory × Bank × Nat × Bool :=
  match selected_inventory_slot with
  | Option.none => (inv, bank, 0, false)
  | some slot =>
      match inv.get_item slot with
      | Option.none => (inv, bank, 0, false)
      | some selected_item =>
          let item_name := selected_item.name
          let item_type := selected_item.item_type
          let slots_to_deposit :=
            (List.range inv.items.length).filter fun i =>
              match inv.get_item i with
              | some it => it.name = item_name ∧ itemTypeEq it.item_type item_type
              | Option.none => false
          let slots_to_deposit := slots_to_deposit.reverse
          depositLoop slots_to_deposit inv bank 0

end RS8

namespace RS8

/-!  Claim C1: the three-chop woodcutting scenario. -/

/-- The C1 scenario state: a level-1 woodcutter holding a bronze axe,
standing on a fresh tree (health 3), with the chopping action ongoing and
its timer about to run out. -/
def chopScenario : GameState :=
  { player_x := 0, player_y := 0
    skills := Skills.new
    inventory := ⟨some Item.bronze_axe :: List.replicate 27 Option.none⟩
    world_objects := [WorldObject.newTree 0 0]
    target_x := Option.none, target_y := Option.none
    pending_action := .none
    ongoing_action := .choppingTree 0 0 0
    action_timer := 0
    messages := [] }

/-- The world.rs `Tree` after `k` chops by a level-1 woodcutter with a
bronze axe, paired with the success flags of each chop. -/
def treeChops : Nat → Bool × Tree
  | 0 => (true, Tree.new 0 0)
  | k + 1 => ((treeChops k).2.try_chop Skills.new (some Item.bronze_axe))

attribute [local semireducible] Rat.sub Rat.add Rat.mul Rat.inv Rat.ofScientific in
/-- Claim C1 (code bug).  In the live chopping loop of
`update_ongoing_action` (which chops `WorldObject`s), each of three
successful chop ticks does grant exactly 25 woodcutting XP and one "Logs"
item, but `WorldObject::try_chop` never decrements the tree's health and
never sets `fallen`, so after three ticks the tree still has health 3, has
not fallen, and the ongoing action is still running — the loop never
reaches its tree-falls branch.  The dead `Tree::try_chop` in `world.rs`
implements exactly the claimed behaviour: three chops succeed, deplete the
health 3 → 0, set `fallen` and start the 30-second respawn countdown. -/
theorem C1_three_chops_never_deplete_live_tree :
    (let s3 := ((chopScenario.update_ongoing_action 3).update_ongoing_action 3
                  ).update_ongoing_action 3
     (s3.world_objects.get? 0).map WorldObject.health = some 3 ∧
     (s3.world_objects.get? 0).map WorldObject.fallen = some false ∧
     s3.ongoing_action = .choppingTree 0 0 0 ∧
     s3.skills.woodcutting.experience = 75 ∧
     sumName s3.inventory.items "Logs" = 3) ∧
    ((treeChops 1).1 = true ∧ (treeChops 2).1 = true ∧ (treeChops 3).1 = true ∧
     (treeChops 3).2.health = 0 ∧ (treeChops 3).2.fallen = true ∧
     (treeChops 3).2.respawn_timer = some 30) := by
  constructor
  · refine ⟨by decide, by decide, by decide, by decide, by decide⟩
  · refine ⟨by decide, by decide, by decide, by decide, by decide, by decide⟩

/-!  Claim C3: Deposit-All of a stack of 5 logs into a bank holding 10. -/

/-- C3 scenario: the selected inventory slot holds a stack of 5 logs. -/
def c3Inventory : Inventory :=
  ⟨some { Item.logs with stackable := true, quantity := 5 } ::
    List.replicate 27 Option.none⟩

/-- C3 scenario: the bank already holds 10 logs of the same name. -/
def c3Bank : Bank :=
  ⟨some { Item.logs with quantity := 10 } :: List.replicate 7 Option.none⟩

/-- Claim C3 (confirmed).  Deposit-All on the slot holding the 5-log stack
merges into the existing bank stack: afterwards exactly one bank slot holds
"Logs", with quantity 15, and the originating inventory slot is empty. -/
theorem C3_deposit_all_merges_into_bank_stack :
    (deposit_all_items (some 0) c3Inventory c3Bank).2.1.get_item 0 =
        some { Item.logs with quantity := 15 } ∧
    countName (deposit_all_items (some 0) c3Inventory c3Bank).2.1.items "Logs" = 1 ∧
    (deposit_all_items (some 0) c3Inventory c3Bank).1.get_item 0 = Option.none := by
  refine ⟨by decide, by decide, by decide⟩

/-!  Claim C7: fishing a Trout spot with no bait never succeeds. -/

/-- Claim C7 (confirmed).  `FishingSpot::try_fish` on a Trout spot with
`bait = false` returns `None` for every skill state, rod argument and
random draw. -/
theorem C7_trout_without_bait_never_caught
    (spot : FishingSpot) (h : spot.fish_type = .trout)
    (skills : Skills) (rod : Option Item) (roll : Bool) :
    spot.try_fish skills rod false roll = Option.none := by
  unfold FishingSpot.try_fish
  rw [h]
  simp

/-- Witness for C7: a concrete Trout spot, fishing level 15 and a rod in
hand. -/
theorem C7_witness :
    (FishingSpot.new 0 0 .trout).try_fish
      { Skills.new with fishing := { level := 15, experience := cumXP 15 } }
      (some Item.fishing_rod) false true = Option.none :=
  C7_trout_without_bait_never_caught (FishingSpot.new 0 0 .trout) rfl _ _ _

/-!  Claim C5: the level is a pure function of the experience total. -/

/-- With the level/experience invariant in place, adding zero XP is the
identity on a `Skill`. -/
lemma add_experience_zero_fixed (s : Skill)
    (h : s.level = update_level s.experience) :
    s.add_experience 0 = s := by
  cases s with
  | mk level experience =>
      simp only [Skill.add_experience]
      simp only at h
      simp [h]

/-- The level loop never leaves the `1..=99` band upwards. -/
lemma levelWalk_le (fuel : Nat) :
    ∀ level points experience, level ≤ 99 →
      levelWalk fuel level points experience ≤ 99 := by
  induction fuel with
  | zero => intro level points experience h; simpa [levelWalk] using h
  | succ fuel ih =>
      intro level points experience h
      simp only [levelWalk]
      split
      · split
        · exact h
        · exact ih (level + 1) _ _ (by omega)
      · exact h

/-- Claim C5 (confirmed).  Adding zero experience any number of times never
changes the level; for every level `L` in `2..=99` the exact cumulative
threshold `cumXP L` yields level `L` while one XP less yields `L - 1`; and
the recomputed level never exceeds the cap 99. -/
theorem C5_level_pure_function_of_experience :
    (∀ s : Skill, s.level = update_level s.experience →
        ∀ n : Nat, ((fun t => Skill.add_experience t 0)^[n] s).level = s.level) ∧
    (∀ L < 100, 2 ≤ L →
        update_level (cumXP L) = L ∧ update_level (cumXP L - 1) = L - 1) ∧
    (∀ e : Nat, update_level e ≤ 99) := by
  refine ⟨?_, ?_, ?_⟩
  · intro s h n
    rw [Function.iterate_fixed (add_experience_zero_fixed s h) n]
  · decide
  · intro e
    exact levelWalk_le 99 1 0 e (by omega)

/-- Witness for C5: a fresh skill is untouched by two zero-XP grants, the
level-50 threshold behaves exactly, and a large XP total caps at 99. -/
theorem C5_witness :
    ((fun t => Skill.add_experience t 0)^[2] Skill.new).level = Skill.new.level ∧
    (update_level (cumXP 50) = 50 ∧ update_level (cumXP 50 - 1) = 49) ∧
    update_level 123456789 ≤ 99 :=
  ⟨C5_level_pure_function_of_experience.1 Skill.new (by decide) 2,
   C5_level_pure_function_of_experience.2.1 50 (by omega) (by omega),
   C5_level_pure_function_of_experience.2.2 123456789⟩

/-!  Claim C2: `remove_n` semantics of the two containers. -/

/-- `Inventory.get_item` unfolded to the underlying slot lookup. -/
lemma get_item_eq_some {inv : Inventory} {i : Nat} {it : Item} :
    inv.get_item i = some it ↔ inv.items.get? i = some (some it) := by
  unfold Inventory.get_item
  cases h : inv.items.get? i with
  | none => simp
  | some o => cases o <;> simp

/-- `Bank.get_item` unfolded to the underlying slot lookup. -/
lemma bank_get_item_eq_some {bank : Bank} {i : Nat} {it : Item} :
    bank.get_item i = some it ↔ bank.items.get? i = some (some it) := by
  unfold Bank.get_item
  cases h : bank.items.get? i with
  | none => simp
  | some o => cases o <;> simp

/-- Closed form of `removeNAt`: the result only rewrites the addressed
slot, exactly as `Inventory::remove_items` does through `get_mut`. -/
lemma removeNAt_spec (l : List (Option Item)) (i amount : Nat) :
    removeNAt l i amount =
      match l.get? i with
      | some (some it) =>
          if ¬ it.is_stackable ∨ it.quantity < amount then (Option.none, l)
          else if amount = it.quantity then (some it, l.set i Option.none)
          else (some { it with quantity := amount },
                l.set i (some { it with quantity := it.quantity - amount }))
      | _ => (Option.none, l) := by
  induction l generalizing i with
  | nil => cases i <;> rfl
  | cons s rest ih =>
      cases i with
      | zero =>
          cases s with
          | none => rfl
          | some it =>
              simp only [removeNAt, List.get?]
              split
              · rfl
              · split <;> rfl
      | succ i =>
          simp only [removeNAt, List.get?, List.set]
          rw [ih i]
          cases hg : rest.get? i with
          | none => rfl
          | some o =>
              cases o with
              | none => rfl
              | some it =>
                  simp only []
                  split
                  · rfl
                  · split <;> rfl

/-- Closed form of `bankRemoveNAt`: one unit is removed whenever
`amount ≥ 1`, regardless of stackability and of `amount`. -/
lemma bankRemoveNAt_spec (l : List (Option Item)) (i amount : Nat) :
    bankRemoveNAt l i amount =
      match l.get? i with
      | some (some it) =>
          if 1 ≤ amount then
            if it.quantity ≤ 1 then
              (some { it with stackable := false, quantity := 1 },
               l.set i Option.none)
            else
              (some { name := it.name, item_type := it.item_type
                      stackable := false, quantity := 1 },
               l.set i (some { it with quantity := it.quantity - 1 }))
          else (Option.none, l)
      | _ => (Option.none, l) := by
  induction l generalizing i with
  | nil => cases i <;> rfl
  | cons s rest ih =>
      cases i with
      | zero =>
          cases s with
          | none => rfl
          | some it =>
              simp only [bankRemoveNAt, List.get?]
              split
              · split <;> rfl
              · rfl
      | succ i =>
          simp only [bankRemoveNAt, List.get?, List.set]
          rw [ih i]
          cases hg : rest.get? i with
          | none => rfl
          | some o =>
              cases o with
              | none => rfl
              | some it =>
                  simp only []
                  split
                  · split <;> rfl
                  · rfl

/-- Claim C2, amended (corrected).  `Inventory::remove_items` behaves as
the claim states: it returns `None` and leaves the container unchanged
when the item is not stackable or `amount` exceeds the quantity; with
`amount` equal to the quantity it clears the slot and returns the original
item; otherwise it splits off exactly `amount`, preserving name, category
and flag, and the remaining quantity never underflows.
`Bank::remove_items`, however, ignores `amount`: whenever `amount ≥ 1` it
removes exactly one unit — clearing the slot (returning an unstackable
single copy) when the quantity is at most one, else decrementing the stack
by one — and it never underflows either. -/
theorem C2_remove_n_semantics :
    (∀ (inv : Inventory) (i amount : Nat) (it : Item),
        inv.get_item i = some it →
        ((it.is_stackable = false ∨ it.quantity < amount →
            inv.remove_items i amount = (Option.none, inv)) ∧
         (it.is_stackable = true → amount = it.quantity →
            inv.remove_items i amount = (some it, ⟨inv.items.set i Option.none⟩)) ∧
         (it.is_stackable = true → amount < it.quantity →
            inv.remove_items i amount =
              (some { it with quantity := amount },
               ⟨inv.items.set i (some { it with quantity := it.quantity - amount })⟩) ∧
            it.quantity - amount + amount = it.quantity))) ∧
    (∀ (bank : Bank) (i amount : Nat) (it : Item),
        bank.get_item i = some it → 1 ≤ amount →
        ((it.quantity ≤ 1 →
            bank.remove_items i amount =
              (some { it with stackable := false, quantity := 1 },
               ⟨bank.items.set i Option.none⟩)) ∧
         (1 < it.quantity →
            bank.remove_items i amount =
              (some { name := it.name, item_type := it.item_type
                      stackable := false, quantity := 1 },
               ⟨bank.items.set i (some { it with quantity := it.quantity - 1 })⟩) ∧
            it.quantity - 1 + 1 = it.quantity))) := by
  constructor
  · intro inv i amount it hget
    obtain ⟨litems⟩ := inv
    rw [get_item_eq_some] at hget
    unfold Inventory.remove_items
    rw [removeNAt_spec, hget]
    dsimp only
    refine ⟨?_, ?_, ?_⟩
    · intro h
      have hc : ¬ it.is_stackable ∨ it.quantity < amount := by
        rcases h with h | h
        · exact Or.inl (by simp [h])
        · exact Or.inr h
      rw [if_pos hc]
    · intro hs he
      have hcond : ¬ (¬ it.is_stackable ∨ it.quantity < amount) := by
        push_neg
        exact ⟨by simp [hs], by omega⟩
      rw [if_neg hcond, if_pos he]
    · intro hs hlt
      have hcond : ¬ (¬ it.is_stackable ∨ it.quantity < amount) := by
        push_neg
        exact ⟨by simp [hs], by omega⟩
      have hne : ¬ amount = it.quantity := by omega
      rw [if_neg hcond, if_neg hne]
      exact ⟨rfl, by omega⟩
  · intro bank i amount it hget hamt
    obtain ⟨litems⟩ := bank
    rw [bank_get_item_eq_some] at hget
    unfold Bank.remove_items
    rw [bankRemoveNAt_spec, hget]
    dsimp only
    refine ⟨?_, ?_⟩
    · intro h
      rw [if_pos hamt, if_pos h]
    · intro h
      have hn : ¬ it.quantity ≤ 1 := by omega
      rw [if_pos hamt, if_neg hn]
      exact ⟨rfl, by omega⟩

/-- Counterexample for C2 as frozen: on a bank slot holding a stackable
stack of 3 logs, `remove_items` with `amount = 5 > 3` does not return
`None` and does not leave the slot unchanged — it removes one unit. -/
theorem C2_counterexample :
    ((Bank.mk [some { Item.logs with stackable := true, quantity := 3 }]
        ).remove_items 0 5).1 =
      some { Item.logs with stackable := false, quantity := 1 } ∧
    ((Bank.mk [some { Item.logs with stackable := true, quantity := 3 }]
        ).remove_items 0 5).2.get_item 0 =
      some { Item.logs with stackable := true, quantity := 2 } := by
  refine ⟨by decide, by decide⟩

/-- Witness for C2: the split case of `Inventory::remove_items` on a stack
of 5 GP, and the decrement case of `Bank::remove_items`. -/
theorem C2_witness :
    ((Inventory.mk [some (Item.gp 5)]).get_item 0 = some (Item.gp 5) ∧
      (Item.gp 5).is_stackable = true ∧ 2 < (Item.gp 5).quantity ∧
      (Inventory.mk [some (Item.gp 5)]).remove_items 0 2 =
        (some { Item.gp 5 with quantity := 2 },
         ⟨[some (Item.gp 5)].set 0 (some { Item.gp 5 with quantity := 3 })⟩)) ∧
    ((Bank.mk [some (Item.gp 5)]).get_item 0 = some (Item.gp 5) ∧
      (Bank.mk [some (Item.gp 5)]).remove_items 0 3 =
        (some { name := (Item.gp 5).name, item_type := (Item.gp 5).item_type
                stackable := false, quantity := 1 },
         ⟨[some (Item.gp 5)].set 0 (some { Item.gp 5 with quantity := 4 })⟩)) :=
  ⟨⟨by decide, by decide, by decide,
    ((C2_remove_n_semantics.1 (Inventory.mk [some (Item.gp 5)]) 0 2 (Item.gp 5)
        (by decide)).2.2 (by decide) (by decide)).1⟩,
   ⟨by decide,
    ((C2_remove_n_semantics.2 (Bank.mk [some (Item.gp 5)]) 0 3 (Item.gp 5)
        (by decide) (by decide)).2 (by decide)).1⟩⟩

/-!  Shared facts about the container scans, used for the add/remove
round-trip and stacking claims. -/

/-- Changing only the quantity leaves stackability untouched. -/
lemma is_stackable_with_quantity (it : Item) (k : Nat) :
    ({ it with quantity := k } : Item).is_stackable = it.is_stackable := rfl

/-- A successful stacking scan adds the incoming quantity to the total of
its name and changes no other total. -/
lemma stackInto_sum {l l2 : List (Option Item)} {it : Item}
    (h : stackInto l it = some l2) (n : String) :
    sumName l2 n = sumName l n + (if it.name = n then it.quantity else 0) := by
  induction l generalizing l2 with
  | nil => simp [stackInto] at h
  | cons s rest ih =>
      cases s with
      | none =>
          rw [stackInto, Option.map_eq_some'] at h
          obtain ⟨l3, h3, rfl⟩ := h
          simpa [sumName] using ih h3
      | some e =>
          rw [stackInto] at h
          by_cases he : e.name = it.name
          · rw [if_pos he] at h
            cases h
            by_cases hn : e.name = n
            · have hn2 : it.name = n := he ▸ hn
              simp [sumName, hn, hn2]
              omega
            · have hn2 : ¬ it.name = n := fun hx => hn (he.trans hx)
              simp [sumName, hn, hn2]
          · rw [if_neg he, Option.map_eq_some'] at h
            obtain ⟨l3, h3, rfl⟩ := h
            have := ih h3
            simp only [sumName, this]
            omega

/-- A successful stacking scan does not change how many slots hold any
given name. -/
lemma stackInto_count {l l2 : List (Option Item)} {it : Item}
    (h : stackInto l it = some l2) (n : String) :
    countName l2 n = countName l n := by
  induction l generalizing l2 with
  | nil => simp [stackInto] at h
  | cons s rest ih =>
      cases s with
      | none =>
          rw [stackInto, Option.map_eq_some'] at h
          obtain ⟨l3, h3, rfl⟩ := h
          simpa [countName] using ih h3
      | some e =>
          rw [stackInto] at h
          by_cases he : e.name = it.name
          · rw [if_pos he] at h
            cases h
            simp [countName]
          · rw [if_neg he, Option.map_eq_some'] at h
            obtain ⟨l3, h3, rfl⟩ := h
            simp [countName, ih h3]

/-- The stacking scan fails exactly when no occupied slot carries the
incoming item's name. -/
lemma stackInto_eq_none_iff {l : List (Option Item)} {it : Item} :
    stackInto l it = Option.none ↔ countName l it.name = 0 := by
  induction l with
  | nil => simp [stackInto, countName]
  | cons s rest ih =>
      cases s with
      | none =>
          rw [stackInto, Option.map_eq_none']
          simpa [countName] using ih
      | some e =>
          rw [stackInto]
          by_cases he : e.name = it.name
          · simp [if_pos he, countName, he]
          · rw [if_neg he, Option.map_eq_none']
            simp [countName, he, ih]

/-- A successful empty-slot placement adds the item's quantity to the
total of its name and changes no other total. -/
lemma placeEmpty_sum {l l2 : List (Option Item)} {it : Item}
    (h : placeEmpty l it = some l2) (n : String) :
    sumName l2 n = sumName l n + (if it.name = n then it.quantity else 0) := by
  induction l generalizing l2 with
  | nil => simp [placeEmpty] at h
  | cons s rest ih =>
      cases s with
      | none =>
          rw [placeEmpty] at h
          cases h
          simp [sumName]
          omega
      | some e =>
          rw [placeEmpty, Option.map_eq_some'] at h
          obtain ⟨l3, h3, rfl⟩ := h
          simp only [sumName, ih h3]
          omega

/-- A successful empty-slot placement adds one occupied slot of the item's
name. -/
lemma placeEmpty_count {l l2 : List (Option Item)} {it : Item}
    (h : placeEmpty l it = some l2) (n : String) :
    countName l2 n = countName l n + (if it.name = n then 1 else 0) := by
  induction l generalizing l2 with
  | nil => simp [placeEmpty] at h
  | cons s rest ih =>
      cases s with
      | none =>
          rw [placeEmpty] at h
          cases h
          simp [countName]
          omega
      | some e =>
          rw [placeEmpty, Option.map_eq_some'] at h
          obtain ⟨l3, h3, rfl⟩ := h
          simp only [countName, ih h3]
          omega

/-- The empty-slot scan fails exactly when there is no empty slot. -/
lemma placeEmpty_eq_none_iff {l : List (Option Item)} {it : Item} :
    placeEmpty l it = Option.none ↔ Option.none ∉ l := by
  induction l with
  | nil => simp [placeEmpty]
  | cons s rest ih =>
      cases s with
      | none => simp [placeEmpty]
      | some e =>
          rw [placeEmpty, Option.map_eq_none']
          simp [ih]

/-- A name held by no occupied slot has total quantity zero. -/
lemma countName_zero_sum {l : List (Option Item)} {n : String}
    (h : countName l n = 0) : sumName l n = 0 := by
  induction l with
  | nil => rfl
  | cons s rest ih =>
      cases s with
      | none =>
          rw [countName] at h
          rw [sumName]
          exact ih h
      | some e =>
          rw [countName] at h
          rw [sumName]
          by_cases he : e.name = n
          · rw [if_pos he] at h
            omega
          · rw [if_neg he] at h
            have := ih (by omega)
            simp [he, this]

/-- `Inventory::add_item` succeeds whenever a matching stack exists (for a
stackable item) or an empty slot exists, and then the added quantity lands
on the item's name total. -/
lemma add_item_of_room (l : List (Option Item)) (it : Item)
    (h : (it.is_stackable = true ∧
            (countName l it.name ≠ 0 ∨ Option.none ∈ l)) ∨
         (it.is_stackable = false ∧ Option.none ∈ l)) :
    (Inventory.add_item ⟨l⟩ it).1 = true ∧
    ∀ n, sumName (Inventory.add_item ⟨l⟩ it).2.items n =
      sumName l n + (if it.name = n then it.quantity else 0) := by
  unfold Inventory.add_item
  rcases h with ⟨hstk, hroom⟩ | ⟨hstk, hempty⟩
  · rw [if_pos (by simp [hstk])]
    cases hsi : stackInto l it with
    | some l3 => exact ⟨rfl, fun n => stackInto_sum hsi n⟩
    | none =>
        have hcnt : countName l it.name = 0 := stackInto_eq_none_iff.mp hsi
        have hemp : Option.none ∈ l := by
          rcases hroom with hc | he
          · exact absurd hcnt hc
          · exact he
        cases hpe : placeEmpty l it with
        | some l3 => exact ⟨rfl, fun n => placeEmpty_sum hpe n⟩
        | none => exact absurd hemp (placeEmpty_eq_none_iff.mp hpe)
  · rw [if_neg (by simp [hstk])]
    cases hpe : placeEmpty l it with
    | some l3 => exact ⟨rfl, fun n => placeEmpty_sum hpe n⟩
    | none => exact absurd hempty (placeEmpty_eq_none_iff.mp hpe)

/-!  Claim C4: `remove_one` / `add` round trip. -/

/-- A successful `removeAt` takes exactly the returned contribution out of
the name totals. -/
lemma removeAt_sum {l : List (Option Item)} {i : Nat} {it : Item}
    {l2 : List (Option Item)} (h : removeAt l i = (some it, l2)) (n : String) :
    sumName l2 n + (if it.name = n then it.quantity else 0) = sumName l n := by
  induction l generalizing i l2 with
  | nil => cases i <;> simp [removeAt] at h
  | cons s rest ih =>
      cases i with
      | zero =>
          cases s with
          | none => simp [removeAt] at h
          | some e =>
              rw [removeAt] at h
              by_cases hc : e.is_stackable ∧ 1 < e.quantity
              · rw [if_pos hc] at h
                injection h with h1 h2
                injection h1 with h1
                subst h1 h2
                by_cases hn : e.name = n
                · simp [sumName, hn]
                  omega
                · simp [sumName, hn]
              · rw [if_neg hc] at h
                injection h with h1 h2
                injection h1 with h1
                subst h1 h2
                simp [sumName]
                omega
      | succ i =>
          have hd : removeAt (s :: rest) (i + 1) =
              ((removeAt rest i).1, s :: (removeAt rest i).2) := rfl
          rw [hd] at h
          have h1 : (removeAt rest i).1 = some it := congrArg Prod.fst h
          have h2 : s :: (removeAt rest i).2 = l2 := congrArg Prod.snd h
          have hr : removeAt rest i = (some it, (removeAt rest i).2) := by
            rw [← h1]
          have ihx := ih hr
          rw [← h2]
          cases s with
          | none => simpa [sumName] using ihx
          | some e =>
              simp only [sumName]
              omega

/-- A successful `removeAt` leaves either another occupied slot with the
removed name (the decremented stack) or an empty slot (the vacated one);
when the removed item is unstackable it always leaves an empty slot. -/
lemma removeAt_residue {l : List (Option Item)} {i : Nat} {it : Item}
    {l2 : List (Option Item)} (h : removeAt l i = (some it, l2)) :
    (countName l2 it.name ≠ 0 ∨ Option.none ∈ l2) ∧
    (it.is_stackable = false → Option.none ∈ l2) := by
  induction l generalizing i l2 with
  | nil => cases i <;> simp [removeAt] at h
  | cons s rest ih =>
      cases i with
      | zero =>
          cases s with
          | none => simp [removeAt] at h
          | some e =>
              rw [removeAt] at h
              by_cases hc : e.is_stackable ∧ 1 < e.quantity
              · rw [if_pos hc] at h
                injection h with h1 h2
                injection h1 with h1
                subst h1 h2
                constructor
                · left
                  simp [countName]
                · intro hstk
                  rw [is_stackable_with_quantity] at hstk
                  rw [hstk] at hc
                  simp at hc
              · rw [if_neg hc] at h
                injection h with h1 h2
                injection h1 with h1
                subst h1 h2
                exact ⟨Or.inr (List.mem_cons_self _ _), fun _ => List.mem_cons_self _ _⟩
      | succ i =>
          have hd : removeAt (s :: rest) (i + 1) =
              ((removeAt rest i).1, s :: (removeAt rest i).2) := rfl
          rw [hd] at h
          have h1 : (removeAt rest i).1 = some it := congrArg Prod.fst h
          have h2 : s :: (removeAt rest i).2 = l2 := congrArg Prod.snd h
          have hr : removeAt rest i = (some it, (removeAt rest i).2) := by
            rw [← h1]
          obtain ⟨ih1, ih2⟩ := ih hr
          rw [← h2]
          constructor
          · rcases ih1 with hcnt | hmem
            · left
              cases s with
              | none => simpa [countName] using hcnt
              | some e => simp [countName]; omega
            · right
              exact List.mem_cons_of_mem _ hmem
          · intro hstk
            exact List.mem_cons_of_mem _ (ih2 hstk)

/-- Claim C4, amended (corrected).  After `remove_one` returns an item,
re-`add`ing it always succeeds and restores every per-name total quantity;
the exact slot occupancy, however, is not always restored (see the
counterexample: the re-added item can land in an earlier empty slot). -/
theorem C4_remove_then_add_restores_quantities
    (inv : Inventory) (i : Nat) (it : Item)
    (h : (inv.remove_item i).1 = some it) :
    (((inv.remove_item i).2.add_item it).1 = true ∧
     ∀ n, sumName (((inv.remove_item i).2.add_item it)).2.items n =
       sumName inv.items n) := by
  have h1 : (removeAt inv.items i).1 = some it := h
  have hr : removeAt inv.items i = (some it, (removeAt inv.items i).2) := by
    rw [← h1]
  obtain ⟨hres1, hres2⟩ := removeAt_residue hr
  have hsum := fun n => removeAt_sum hr n
  have hroom :
      (it.is_stackable = true ∧
         (countName (removeAt inv.items i).2 it.name ≠ 0 ∨
           Option.none ∈ (removeAt inv.items i).2)) ∨
      (it.is_stackable = false ∧ Option.none ∈ (removeAt inv.items i).2) := by
    cases hstk : it.is_stackable with
    | true => exact Or.inl ⟨rfl, hres1⟩
    | false => exact Or.inr ⟨rfl, hres2 hstk⟩
  have hadd := add_item_of_room (removeAt inv.items i).2 it hroom
  refine ⟨hadd.1, fun n => ?_⟩
  have : (inv.remove_item i).2 = ⟨(removeAt inv.items i).2⟩ := rfl
  rw [this]
  rw [hadd.2 n]
  rw [← hsum n]

/-- Counterexample for C4 as frozen: removing the sword from slot 1 of a
container whose slot 0 is empty and re-adding it moves it to slot 0 — the
per-name quantities return but the slot occupancy does not. -/
theorem C4_counterexample :
    ((Inventory.mk [Option.none, some Item.bronze_sword]).remove_item 1).1 =
        some Item.bronze_sword ∧
    (((Inventory.mk [Option.none, some Item.bronze_sword]).remove_item 1
        ).2.add_item Item.bronze_sword).2.items =
      [some Item.bronze_sword, Option.none] ∧
    ¬ ([some Item.bronze_sword, Option.none] =
        ([Option.none, some Item.bronze_sword] : List (Option Item))) := by
  refine ⟨by decide, by decide, by decide⟩

/-- Witness for C4: removing one GP from a stack of 3 and re-adding it
restores the totals. -/
theorem C4_witness :
    ((Inventory.mk [some (Item.gp 3)]).remove_item 0).1 = some (Item.gp 1) ∧
    ((((Inventory.mk [some (Item.gp 3)]).remove_item 0).2.add_item
        (Item.gp 1)).1 = true ∧
     ∀ n, sumName ((((Inventory.mk [some (Item.gp 3)]).remove_item 0
        ).2.add_item (Item.gp 1))).2.items n =
       sumName (Inventory.mk [some (Item.gp 3)]).items n) :=
  ⟨by decide,
   C4_remove_then_add_restores_quantities (Inventory.mk [some (Item.gp 3)]) 0
     (Item.gp 1) (by decide)⟩

/-!  Claim C8: stackable items with equal names merge exactly. -/

/-- Claim C8, amended (corrected).  For a stackable (or currency) item
added twice with quantities 3 and 4 to a container that has no occupied
slot of that name yet and at least one empty slot, both adds return true
and exactly one occupied slot of that name remains, with total quantity 7.
(If the container already holds a stack of quantity `q` of that name, the
resulting stack holds `q + 7`, not 7 — see the counterexample.) -/
theorem C8_two_adds_merge_to_seven
    (inv : Inventory) (it : Item) (hstk : it.is_stackable = true)
    (hcnt : countName inv.items it.name = 0)
    (hemp : Option.none ∈ inv.items) :
    (inv.add_item { it with quantity := 3 }).1 = true ∧
    ((inv.add_item { it with quantity := 3 }).2.add_item
        { it with quantity := 4 }).1 = true ∧
    countName ((inv.add_item { it with quantity := 3 }).2.add_item
        { it with quantity := 4 }).2.items it.name = 1 ∧
    sumName ((inv.add_item { it with quantity := 3 }).2.add_item
        { it with quantity := 4 }).2.items it.name = 7 := by
  obtain ⟨l⟩ := inv
  have hsum0 : sumName l it.name = 0 := countName_zero_sum hcnt
  -- first add: no stack of that name yet, so the item lands in an empty slot
  unfold Inventory.add_item
  rw [if_pos (by simpa [is_stackable_with_quantity] using hstk)]
  have hsi1 : stackInto l { it with quantity := 3 } = Option.none :=
    stackInto_eq_none_iff.mpr hcnt
  rw [hsi1]
  cases hpe : placeEmpty l { it with quantity := 3 } with
  | none => exact absurd hemp (placeEmpty_eq_none_iff.mp hpe)
  | some l1 =>
      have hcnt1 : countName l1 it.name = 1 := by
        have := placeEmpty_count hpe it.name
        simpa [hcnt] using this
      have hsum1 : sumName l1 it.name = 3 := by
        have := placeEmpty_sum hpe it.name
        simpa [hsum0] using this
      -- second add: the freshly placed stack is found and merged into
      rw [if_pos (by simpa [is_stackable_with_quantity] using hstk)]
      cases hsi2 : stackInto l1 { it with quantity := 4 } with
      | none =>
          have := stackInto_eq_none_iff.mp hsi2
          simp only at this
          omega
      | some l2 =>
          have hcnt2 : countName l2 it.name = 1 := by
            have := stackInto_count hsi2 it.name
            simpa [hcnt1] using this
          have hsum2 : sumName l2 it.name = 7 := by
            have := stackInto_sum hsi2 it.name
            simpa [hsum1] using this
          exact ⟨rfl, rfl, hcnt2, hsum2⟩

/-- Counterexample for C8 as frozen: if the container already holds a
stack of 5 of the same name, the two adds merge into it and the single
slot ends with quantity 12, not 7 (both adds still return true). -/
theorem C8_counterexample :
    ((Inventory.mk [some { Item.logs with stackable := true, quantity := 5 },
        Option.none]).add_item
          { Item.logs with stackable := true, quantity := 3 }).1 = true ∧
    (((Inventory.mk [some { Item.logs with stackable := true, quantity := 5 },
        Option.none]).add_item
          { Item.logs with stackable := true, quantity := 3 }).2.add_item
          { Item.logs with stackable := true, quantity := 4 }).1 = true ∧
    (((Inventory.mk [some { Item.logs with stackable := true, quantity := 5 },
        Option.none]).add_item
          { Item.logs with stackable := true, quantity := 3 }).2.add_item
          { Item.logs with stackable := true, quantity := 4 }).2.items =
      [some { Item.logs with stackable := true, quantity := 12 },
       Option.none] := by
  refine ⟨by decide, by decide, by decide⟩

/-- Witness for C8: two GP stacks merged into a fresh two-slot container. -/
theorem C8_witness :
    ((Item.gp 1).is_stackable = true ∧
      countName (Inventory.new 2).items (Item.gp 1).name = 0 ∧
      Option.none ∈ (Inventory.new 2).items) ∧
    ((Inventory.new 2).add_item { Item.gp 1 with quantity := 3 }).1 = true ∧
    (((Inventory.new 2).add_item { Item.gp 1 with quantity := 3 }).2.add_item
        { Item.gp 1 with quantity := 4 }).1 = true ∧
    countName (((Inventory.new 2).add_item
        { Item.gp 1 with quantity := 3 }).2.add_item
        { Item.gp 1 with quantity := 4 }).2.items (Item.gp 1).name = 1 ∧
    sumName (((Inventory.new 2).add_item
        { Item.gp 1 with quantity := 3 }).2.add_item
        { Item.gp 1 with quantity := 4 }).2.items (Item.gp 1).name = 7 :=
  ⟨⟨by decide, by decide, by decide⟩,
   C8_two_adds_merge_to_seven (Inventory.new 2) (Item.gp 1)
     (by decide) (by decide) (by decide)⟩

/-!  Claim C9: the equipment slot/category invariant. -/

/-- The four mutating operations of `Equipment` (`src/equipment.rs`),
with the returned previous occupant discarded. -/
inductive EquipOp
  | equipWeapon (item : Item)
  | equipArmor (item : Item)
  | unequipWeapon
  | unequipArmor (slot : ArmorSlot)
deriving DecidableEq

/-- Application of one equipment operation to the state. -/
def applyEquipOp (e : Equipment) (op : EquipOp) : Equipment :=
  match op with
  | .equipWeapon item => (e.equip_weapon item).2
  | .equipArmor item => (e.equip_armor item).2
  | .unequipWeapon => e.unequip_weapon.2
  | .unequipArmor slot => (e.unequip_armor slot).2

/-- The item carries Weapon category. -/
def isWeaponItem (it : Item) : Bool :=
  match it.item_type with
  | .weapon _ => true
  | _ => false

/-- The item carries Armor category with the given declared slot. -/
def isArmorFor (it : Item) (s : ArmorSlot) : Bool :=
  match it.item_type with
  | .armor stats => stats.slot = s
  | _ => false

/-- The item carries Armor category (any slot). -/
def isArmorItem (it : Item) : Bool :=
  match it.item_type with
  | .armor _ => true
  | _ => false

/-- The armor half of the claimed invariant: every occupied armor slot
holds an Armor item whose declared slot matches. -/
def armorInv (e : Equipment) : Prop :=
  (∀ it, e.head = some it → isArmorFor it .head = true) ∧
  (∀ it, e.body = some it → isArmorFor it .body = true) ∧
  (∀ it, e.legs = some it → isArmorFor it .legs = true)

/-- The weapon half of the claimed invariant. -/
def weaponInv (e : Equipment) : Prop :=
  ∀ it, e.weapon = some it → isWeaponItem it = true

/-- An operation that never pushes a non-weapon into the weapon slot (the
guard the game's caller places around `equip_weapon`). -/
def weaponGuarded : EquipOp → Prop
  | .equipWeapon item => isWeaponItem item = true
  | _ => True

instance : DecidablePred weaponGuarded := by
  intro op
  cases op <;> simp [weaponGuarded] <;> infer_instance

/-- One step preserves the armor invariant. -/
lemma armorInv_step {e : Equipment} (h : armorInv e) (op : EquipOp) :
    armorInv (applyEquipOp e op) := by
  obtain ⟨hh, hb, hl⟩ := h
  cases op with
  | equipWeapon item => exact ⟨hh, hb, hl⟩
  | unequipWeapon => exact ⟨hh, hb, hl⟩
  | unequipArmor slot =>
      cases slot with
      | head =>
          refine ⟨?_, hb, hl⟩
          intro it hit
          simp [applyEquipOp, Equipment.unequip_armor] at hit
      | body =>
          refine ⟨hh, ?_, hl⟩
          intro it hit
          simp [applyEquipOp, Equipment.unequip_armor] at hit
      | legs =>
          refine ⟨hh, hb, ?_⟩
          intro it hit
          simp [applyEquipOp, Equipment.unequip_armor] at hit
  | equipArmor item =>
      simp only [applyEquipOp, Equipment.equip_armor]
      cases hty : item.item_type with
      | armor stats =>
          obtain ⟨db, sl⟩ := stats
          cases sl with
          | head =>
              dsimp only
              refine ⟨?_, hb, hl⟩
              intro it hit
              injection hit with hit
              subst hit
              simp [isArmorFor, hty]
          | body =>
              dsimp only
              refine ⟨hh, ?_, hl⟩
              intro it hit
              injection hit with hit
              subst hit
              simp [isArmorFor, hty]
          | legs =>
              dsimp only
              refine ⟨hh, hb, ?_⟩
              intro it hit
              injection hit with hit
              subst hit
              simp [isArmorFor, hty]
      | weapon stats => exact ⟨hh, hb, hl⟩
      | food healing => exact ⟨hh, hb, hl⟩
      | tool tool => exact ⟨hh, hb, hl⟩
      | resource res => exact ⟨hh, hb, hl⟩
      | currency value => exact ⟨hh, hb, hl⟩

/-- One guarded step preserves the weapon invariant. -/
lemma weaponInv_step {e : Equipment} (h : weaponInv e) {op : EquipOp}
    (hop : weaponGuarded op) : weaponInv (applyEquipOp e op) := by
  cases op with
  | equipWeapon item =>
      intro it hit
      simp only [applyEquipOp, Equipment.equip_weapon] at hit
      injection hit with hit
      subst hit
      exact hop
  | equipArmor item =>
      simp only [applyEquipOp, Equipment.equip_armor]
      cases hty : item.item_type with
      | armor stats =>
          obtain ⟨db, sl⟩ := stats
          cases sl <;> exact h
      | weapon stats => exact h
      | food healing => exact h
      | tool tool => exact h
      | resource res => exact h
      | currency value => exact h
  | unequipWeapon =>
      intro it hit
      simp [applyEquipOp, Equipment.unequip_weapon] at hit
  | unequipArmor slot =>
      cases slot <;> exact h

/-- Claim C9, amended (corrected).  For every operation sequence from the
empty equipment: the armor slots only ever hold Armor items with matching
declared slot, and `equip_armor` on a non-armor item is a no-op returning
`None`; the weapon-slot half of the invariant holds only under the extra
assumption that every `equip_weapon` call receives a Weapon-category item
(the function itself performs no category check — see the
counterexample). -/
theorem C9_equipment_invariant :
    (∀ ops : List EquipOp, armorInv (ops.foldl applyEquipOp Equipment.new)) ∧
    (∀ (e : Equipment) (it : Item), isArmorItem it = false →
        e.equip_armor it = (Option.none, e)) ∧
    (∀ ops : List EquipOp, (∀ op ∈ ops, weaponGuarded op) →
        weaponInv (ops.foldl applyEquipOp Equipment.new)) := by
  refine ⟨?_, ?_, ?_⟩
  · intro ops
    have base : armorInv Equipment.new := by
      refine ⟨?_, ?_, ?_⟩ <;> intro it hit <;> simp [Equipment.new] at hit
    have gen : ∀ (l : List EquipOp) (e : Equipment), armorInv e →
        armorInv (l.foldl applyEquipOp e) := by
      intro l
      induction l with
      | nil => intro e he; exact he
      | cons op rest ih =>
          intro e he
          exact ih _ (armorInv_step he op)
    exact gen ops Equipment.new base
  · intro e it hna
    unfold Equipment.equip_armor
    cases hty : it.item_type with
    | armor stats => rw [isArmorItem, hty] at hna; cases hna
    | weapon stats => rfl
    | food healing => rfl
    | tool tool => rfl
    | resource res => rfl
    | currency value => rfl
  · intro ops hguard
    have base : weaponInv Equipment.new := by
      intro it hit; simp [Equipment.new] at hit
    have gen : ∀ (l : List EquipOp), (∀ op ∈ l, weaponGuarded op) →
        ∀ (e : Equipment), weaponInv e → weaponInv (l.foldl applyEquipOp e) := by
      intro l
      induction l with
      | nil => intro _ e he; exact he
      | cons op rest ih =>
          intro hg e he
          exact ih (fun o ho => hg o (List.mem_cons_of_mem _ ho)) _
            (weaponInv_step he (hg op (List.mem_cons_self _ _)))
    exact gen ops hguard Equipment.new base

/-- Counterexample for C9 as frozen: `equip_weapon` accepts any item, so a
Logs resource ends up in the weapon slot, violating the claimed
weapon-slot category invariant for unguarded call sequences. -/
theorem C9_counterexample :
    ([EquipOp.equipWeapon Item.logs].foldl applyEquipOp Equipment.new).weapon =
        some Item.logs ∧
    isWeaponItem Item.logs = false := by
  refine ⟨by decide, by decide⟩

/-- Witness for C9: a guarded sequence equipping a sword and a helmet, an
unequip, and a non-armor no-op check. -/
theorem C9_witness :
    armorInv ([EquipOp.equipWeapon Item.bronze_sword,
               EquipOp.equipArmor Item.bronze_helmet,
               EquipOp.unequipWeapon].foldl applyEquipOp Equipment.new) ∧
    (isArmorItem Item.logs = false ∧
      Equipment.new.equip_armor Item.logs = (Option.none, Equipment.new)) ∧
    weaponInv ([EquipOp.equipWeapon Item.bronze_sword,
                EquipOp.equipArmor Item.bronze_helmet,
                EquipOp.unequipWeapon].foldl applyEquipOp Equipment.new) :=
  ⟨C9_equipment_invariant.1 _,
   ⟨by decide, C9_equipment_invariant.2.1 Equipment.new Item.logs (by decide)⟩,
   C9_equipment_invariant.2.2 _ (by decide)⟩

/-!  Claims C6 and C10: combat damage bounds, hit-chance floor, and
totality of the damage draw. -/

/-- Rust truncating division by ten agrees with Euclidean division on
non-negative dividends. -/
lemma tdiv_ten_nonneg_eq (a : Int) (h : 0 ≤ a) : Int.tdiv a 10 = a / 10 :=
  Int.tdiv_eq_ediv h (by norm_num)

/-- Rust truncating division by ten on negative dividends, reduced to the
non-negative case. -/
lemma tdiv_ten_neg_eq (a : Int) (h : a < 0) : Int.tdiv a 10 = -((-a) / 10) := by
  have h2 : (0:Int) ≤ -a := by omega
  calc Int.tdiv a 10 = Int.tdiv (-(-a)) 10 := by rw [neg_neg]
    _ = -(Int.tdiv (-a) 10) := Int.neg_tdiv _ _
    _ = -((-a) / 10) := by rw [Int.tdiv_eq_ediv h2 (by norm_num)]

/-- With effective strength at most 2549, `max_hit` stays below the `u8`
wrap boundary. -/
lemma maxHit_le_255 {eff : Int} (h : eff ≤ 2549) : maxHit eff ≤ 255 := by
  unfold maxHit
  by_cases h0 : 0 ≤ eff
  · rw [tdiv_ten_nonneg_eq eff h0]
    omega
  · rw [tdiv_ten_neg_eq eff (by omega)]
    omega

/-- Non-negative effective strength makes the damage range `1..=max_hit`
non-empty. -/
lemma maxHit_pos {eff : Int} (h : 0 ≤ eff) : 1 ≤ maxHit eff := by
  unfold maxHit
  rw [tdiv_ten_nonneg_eq eff h]
  omega

/-- Effective strength of `-10` or lower empties the damage range. -/
lemma maxHit_lt_one {eff : Int} (h : eff ≤ -10) : maxHit eff < 1 := by
  unfold maxHit
  rw [tdiv_ten_neg_eq eff (by omega)]
  omega

/-- Claim C6, amended (corrected).  Whenever the effective strength
(`strength_level + strength_bonus`) is at most 2549 — so that `max_hit`
is at most 255 and the `damage as u8` cast cannot wrap — every hit
returned by `Combat::attack` (with the damage draw inside the uniform
range `1..=max_hit`) satisfies `1 ≤ damage ≤ max_hit`, with
`max_hit = 1 + effective_strength / 10` in truncating division; and the
computed hit chance is never below `0.10`, for every defender level and
defense bonus. -/
theorem C6_attack_damage_bounds :
    (∀ (attacker defender : Skills)
        (attack_bonus strength_bonus defender_defense_bonus : Int)
        (roll : AttackRoll) (d : Nat),
        1 ≤ roll.damage_roll →
        roll.damage_roll ≤ maxHit ((attacker.strength.level : Int) + strength_bonus) →
        (attacker.strength.level : Int) + strength_bonus ≤ 2549 →
        Combat.attack attacker defender attack_bonus strength_bonus
            defender_defense_bonus roll = .ok (some d) →
        1 ≤ d ∧ (d : Int) ≤ maxHit ((attacker.strength.level : Int) + strength_bonus)) ∧
    (∀ (attacker defender : Skills) (attack_bonus defender_defense_bonus : Int),
        (1 : ℚ) / 10 ≤ hitChance attacker defender attack_bonus defender_defense_bonus) := by
  constructor
  · intro attacker defender attack_bonus strength_bonus defender_defense_bonus roll d
      h1 h2 h3 hEq
    unfold Combat.attack at hEq
    by_cases hhit : roll.hit_roll ≤
        hitChance attacker defender attack_bonus defender_defense_bonus
    · rw [if_pos hhit] at hEq
      by_cases hmh : maxHit ((attacker.strength.level : Int) + strength_bonus) < 1
      · rw [if_pos hmh] at hEq
        cases hEq
      · rw [if_neg hmh] at hEq
        injection hEq with hEq
        injection hEq with hEq
        have hub : maxHit ((attacker.strength.level : Int) + strength_bonus) ≤ 255 :=
          maxHit_le_255 h3
        omega
    · rw [if_neg hhit] at hEq
      injection hEq with hEq
      cases hEq
  · intro attacker defender attack_bonus defender_defense_bonus
    exact le_max_right _ _

attribute [local semireducible] Rat.sub Rat.add Rat.mul Rat.inv Rat.ofScientific in
/-- Counterexample for C6 as frozen: with a huge strength bonus the drawn
damage 256 (inside the uniform range `1..=261`) wraps through `as u8` to
0, so `attack` returns `Some(0)` with damage below 1. -/
theorem C6_counterexample :
    Combat.attack Skills.new Skills.new 0 2599 0 ⟨0, 256⟩ =
        .ok (some 0) ∧
    (1 ≤ (256 : Int) ∧
      (256 : Int) ≤ maxHit ((Skills.new.strength.level : Int) + 2599)) ∧
    ¬ (1 ≤ (0 : Nat)) := by
  refine ⟨by rfl, ⟨by decide, by decide⟩, by decide⟩

attribute [local semireducible] Rat.sub Rat.add Rat.mul Rat.inv Rat.ofScientific in
/-- Witness for C6: a modest strength bonus, a hit roll of zero and a
damage draw of 2 inside the range `1..=2`. -/
theorem C6_witness :
    (1 ≤ (2 : Int) ∧
      (2 : Int) ≤ maxHit ((Skills.new.strength.level : Int) + 12) ∧
      (Skills.new.strength.level : Int) + 12 ≤ 2549 ∧
      Combat.attack Skills.new Skills.new 0 12 0 ⟨0, 2⟩ = .ok (some 2)) ∧
    (1 ≤ 2 ∧ ((2 : Nat) : Int) ≤ maxHit ((Skills.new.strength.level : Int) + 12)) ∧
    (1 : ℚ) / 10 ≤ hitChance Skills.new Skills.new 0 0 :=
  ⟨⟨by decide, by decide, by decide, by rfl⟩,
   C6_attack_damage_bounds.1 Skills.new Skills.new 0 12 0 ⟨0, 2⟩ 2
     (by decide) (by decide) (by decide) (by rfl),
   C6_attack_damage_bounds.2 Skills.new Skills.new 0 0⟩

/-- Claim C10 (confirmed).  With non-negative effective strength the
damage range `1..=max_hit` (with `max_hit = 1 + eff/10` in truncating
division) is non-empty, so the empty-range panic branch of the damage
draw is unreachable and the embedded `attack` always returns `ok`;
conversely `strength_bonus ≤ -(strength_level + 10)` makes the range
empty. -/
theorem C10_attack_damage_draw_total :
    (∀ (strength_level : Nat) (strength_bonus : Int),
        0 ≤ (strength_level : Int) + strength_bonus →
        1 ≤ maxHit ((strength_level : Int) + strength_bonus)) ∧
    (∀ (attacker defender : Skills)
        (attack_bonus strength_bonus defender_defense_bonus : Int)
        (roll : AttackRoll),
        0 ≤ (attacker.strength.level : Int) + strength_bonus →
        ∃ r, Combat.attack attacker defender attack_bonus strength_bonus
              defender_defense_bonus roll = .ok r) ∧
    (∀ (strength_level : Nat) (strength_bonus : Int),
        strength_bonus ≤ -((strength_level : Int) + 10) →
        maxHit ((strength_level : Int) + strength_bonus) < 1) := by
  refine ⟨?_, ?_, ?_⟩
  · intro strength_level strength_bonus h
    exact maxHit_pos h
  · intro attacker defender attack_bonus strength_bonus defender_defense_bonus roll h
    by_cases hhit : roll.hit_roll ≤
        hitChance attacker defender attack_bonus defender_defense_bonus
    · refine ⟨some ((roll.damage_roll % 256).toNat), ?_⟩
      unfold Combat.attack
      rw [if_pos hhit, if_neg (by have := maxHit_pos h; omega)]
    · refine ⟨Option.none, ?_⟩
      unfold Combat.attack
      rw [if_neg hhit]
  · intro strength_level strength_bonus h
    exact maxHit_lt_one (by omega)

/-- Witness for C10: level 1 with bonus 4 keeps the range non-empty and
the call total; level 1 with bonus -11 empties the range. -/
theorem C10_witness :
    (0 ≤ ((1 : Nat) : Int) + 4 ∧ 1 ≤ maxHit (((1 : Nat) : Int) + 4)) ∧
    (0 ≤ ((Skills.new.strength.level : Nat) : Int) + 4 ∧
      ∃ r, Combat.attack Skills.new Skills.new 0 4 0 ⟨0, 1⟩ = .ok r) ∧
    ((-11 : Int) ≤ -(((1 : Nat) : Int) + 10) ∧
      maxHit (((1 : Nat) : Int) + (-11)) < 1) :=
  ⟨⟨by decide, C10_attack_damage_draw_total.1 1 4 (by decide)⟩,
   ⟨by decide, C10_attack_damage_draw_total.2.1 Skills.new Skills.new 0 4 0 ⟨0, 1⟩
      (by decide)⟩,
   ⟨by decide, C10_attack_damage_draw_total.2.2 1 (-11) (by decide)⟩⟩

end RS8

